import Mathlib

/-!
# Verification of the Video Metadata & Frame-Extraction Pipeline

A shallow embedding, in Lean 4, of the core of the `mcp-video` repository:
the path resolver, the validation layer, the metadata normalizer, the byte
and duration formatters, the frame extractor's parameter derivation and
frame assembly, the persistent-output reuse policy of the `extract_frames`
tool, and the ffmpeg error classifier.

Numbers that are JavaScript `number`s in the source are modelled as exact
rationals (`ℚ`); `Math.round` is the JavaScript rounding (half toward +∞),
`Math.floor` is `Int.floor`.  Strings are Lean `String`s.  Filesystem and
subprocess effects are threaded explicitly through environment records.
-/

namespace McpVideo

/-- JavaScript `Math.round`: rounds half toward positive infinity,
`Math.round x = ⌊x + 1/2⌋`. -/
def jsRound (x : ℚ) : ℤ := ⌊x + 1/2⌋

/-- The user-facing 1–100 quality scale mapped to ffmpeg's native `-q:v`
inverse-quality scale, from `ffmpeg-processor.ts`
(`Math.round((100 - quality) / 3.2 + 2)`, in both `extractFrames` and
`extractFrameAtTime`).  `3.2 = 16/5`. -/
def qualityToNative (quality : ℚ) : ℤ := jsRound ((100 - quality) / (16/5) + 2)

theorem jsRound_le_jsRound {x y : ℚ} (h : x ≤ y) : jsRound x ≤ jsRound y := by
  unfold jsRound
  exact Int.floor_le_floor (by linarith)

/-- C1 (counterexample): the claim fixes the endpoint `quality = 1` to native
value 32, but the code computes `round(99/3.2 + 2) = round(32.9375) = 33`. -/
theorem qualityToNative_c1_cex : qualityToNative 1 = 33 ∧ qualityToNative 1 ≠ 32 := by
  constructor
  · unfold qualityToNative jsRound
    norm_num
  · unfold qualityToNative jsRound
    norm_num

/-- C1 (amended): the quality mapping is exactly
`native = round((100 - quality) / 3.2 + 2)` on the whole 1–100 scale, it is
antitone (a higher user quality gives a lower-or-equal native value), and its
endpoints are `quality = 75 ↦ 10` and `quality = 1 ↦ 33`. -/
theorem qualityToNative_c1 :
    (∀ q : ℚ, 1 ≤ q → q ≤ 100 →
      qualityToNative q = jsRound ((100 - q) / (16/5) + 2)) ∧
    (∀ q₁ q₂ : ℚ, q₁ ≤ q₂ → qualityToNative q₂ ≤ qualityToNative q₁) ∧
    qualityToNative 75 = 10 ∧ qualityToNative 1 = 33 := by
  refine ⟨fun q _ _ => rfl, fun q₁ q₂ h => ?_, ?_, ?_⟩
  · unfold qualityToNative
    exact jsRound_le_jsRound (by linarith)
  · unfold qualityToNative jsRound
    norm_num
  · unfold qualityToNative jsRound
    norm_num

/-- C1 witness: the amended statement applied at concrete qualities 30 ≤ 80. -/
theorem qualityToNative_c1_witness :
    qualityToNative 30 = jsRound ((100 - 30) / (16/5) + 2) ∧
    qualityToNative 80 ≤ qualityToNative 30 := by
  refine ⟨qualityToNative_c1.1 30 (by norm_num) (by norm_num),
    qualityToNative_c1.2.1 30 80 (by norm_num)⟩

/-! ## String primitives

The JavaScript string operations the pipeline uses, implemented by
structural recursion over the character list of a `String` so that concrete
instances reduce. -/

/-- Models `sub.isPrefixOf l` on raw characters (code-unit equality). -/
def startsWithChars : List Char → List Char → Bool
  | [], _ => true
  | _ :: _, [] => false
  | a :: as, b :: bs => a == b && startsWithChars as bs

/-- Occurrence of `sub` as a contiguous run inside `hay`. -/
def charsOccurs : List Char → List Char → Bool
  | [], sub => sub.isEmpty
  | h :: t, sub => startsWithChars sub (h :: t) || charsOccurs t sub

/-- JavaScript `String.prototype.includes`: substring containment. -/
def includesStr (s sub : String) : Bool := charsOccurs s.data sub.data

/-- JavaScript `String.prototype.startsWith`. -/
def strStartsWith (s pre : String) : Bool := startsWithChars pre.data s.data

/-- JavaScript `String.prototype.endsWith`. -/
def strEndsWith (s suf : String) : Bool := startsWithChars suf.data.reverse s.data.reverse

/-- Models `String.prototype.toLowerCase` (ASCII casing, which covers the
extension strings this repository compares). -/
def toLowerStr (s : String) : String := String.mk (s.data.map Char.toLower)

/-- JavaScript string comparison (`<` on strings, used by `Array.sort`):
lexicographic on code units. -/
def jsStrLeChars : List Char → List Char → Bool
  | [], _ => true
  | _ :: _, [] => false
  | a :: as, b :: bs =>
    if a.toNat < b.toNat then true
    else if b.toNat < a.toNat then false
    else jsStrLeChars as bs

/-- JavaScript string comparison on `String`s. -/
def jsStrLe (a b : String) : Bool := jsStrLeChars a.data b.data

/-- Insertion step of the (stable) sort modelling `Array.prototype.sort()`
with the default string comparator. -/
def insertStr (s : String) : List String → List String
  | [] => [s]
  | t :: ts => if jsStrLe s t then s :: t :: ts else t :: insertStr s ts

/-- Models `Array.prototype.sort()` with the default (string, code-unit) order. -/
def sortStrings : List String → List String
  | [] => []
  | s :: ss => insertStr s (sortStrings ss)

/-- Models `path.basename`: the part of the path after the last `/`. -/
def basenameChars : List Char → List Char → List Char
  | [], acc => acc.reverse
  | c :: t, acc => if c == '/' then basenameChars t [] else basenameChars t (c :: acc)

/-- Models `path.basename` on strings (`getFilename` in `file-handler.ts`). -/
def getFilename (p : String) : String := String.mk (basenameChars p.data [])

/-- Models `path.extname`: the substring of the basename from its last `.` to the
end; empty when the basename has no `.` or only a leading one. -/
def extname (p : String) : String :=
  let b := basenameChars p.data []
  let r := b.reverse
  let pre := r.takeWhile (fun c => c ≠ '.')
  if pre.length = r.length then ""
  else if b.length - 1 - pre.length = 0 then ""
  else String.mk ('.' :: pre.reverse)

/-- JavaScript number-to-string for the rational model (used only inside
human-readable messages; digits render as `num/den` for non-integers, which
differs from JS decimal notation in formatting only). -/
def numToString (q : ℚ) : String :=
  if q.den = 1 then toString q.num else toString q.num ++ "/" ++ toString q.den

/-! ## Error model (`types/index.ts`) -/

/-- The closed error taxonomy of `types/index.ts` (`ErrorCode`). -/
inductive ErrorCode where
  | FILE_NOT_FOUND
  | INVALID_PATH
  | UNSUPPORTED_FORMAT
  | FFMPEG_NOT_FOUND
  | FFMPEG_ERROR
  | TRANSCRIPTION_ERROR
  | TIMEOUT
  | UNKNOWN_ERROR
deriving DecidableEq, Repr

/-- The shapes taken by the untyped `details` payload of a `VideoError`. -/
inductive VideoErrorDetails where
  | rangeD (value min max : ℚ)
  | extensionD (ext : String)
  | originalErrorD (s : String)
deriving DecidableEq

/-- Models `VideoError` of `types/index.ts`. -/
structure VideoError where
  code : ErrorCode
  message : String
  details : Option VideoErrorDetails := none
  suggestion : Option String := none
deriving DecidableEq

/-- Models `createFfmpegError` of `ffmpeg-processor.ts`, taking the failure's
diagnostic text (`error.message`). -/
def createFfmpegError (message : String) : VideoError :=
  if includesStr message "not found" || includesStr message "ENOENT" then
    { code := .FFMPEG_NOT_FOUND
      message := "ffmpeg is not installed or not in PATH"
      suggestion := some "Install ffmpeg: brew install ffmpeg (macOS) or apt install ffmpeg (Linux)" }
  else
    { code := .FFMPEG_ERROR
      message := "FFmpeg error: " ++ message
      details := some (.originalErrorD message) }

/-- C7 (counterexample): a diagnostic that contains `"no such file"` but not
`"not found"`/`"ENOENT"` is NOT classified as toolchain-missing — the code
matches on `"not found"` and `"ENOENT"`, not on `"no such file"`. -/
theorem createFfmpegError_c7_cex :
    includesStr "ffmpeg exited: no such file or directory" "no such file" = true ∧
    (createFfmpegError "ffmpeg exited: no such file or directory").code ≠
      ErrorCode.FFMPEG_NOT_FOUND := by
  constructor
  · rfl
  · decide

/-- C7 (amended): the classifier maps a failure to `FFMPEG_NOT_FOUND` exactly
when the diagnostic text contains `"not found"` or `"ENOENT"`; every other
failure becomes the generic `FFMPEG_ERROR` carrying the raw diagnostic text
both in its message and in its details. -/
theorem createFfmpegError_c7 (msg : String) :
    ((createFfmpegError msg).code = ErrorCode.FFMPEG_NOT_FOUND ↔
      (includesStr msg "not found" = true ∨ includesStr msg "ENOENT" = true)) ∧
    ((createFfmpegError msg).code ≠ ErrorCode.FFMPEG_NOT_FOUND →
      (createFfmpegError msg).code = ErrorCode.FFMPEG_ERROR ∧
      (createFfmpegError msg).details = some (.originalErrorD msg) ∧
      (createFfmpegError msg).message = "FFmpeg error: " ++ msg) := by
  unfold createFfmpegError
  by_cases h₁ : includesStr msg "not found" = true <;>
    by_cases h₂ : includesStr msg "ENOENT" = true <;>
      simp [h₁, h₂]

/-- C7 witness: the amended classifier applied to two concrete diagnostics. -/
theorem createFfmpegError_c7_witness :
    (createFfmpegError "spawn ffmpeg ENOENT").code = ErrorCode.FFMPEG_NOT_FOUND ∧
    (createFfmpegError "boom").details = some (.originalErrorD "boom") := by
  refine ⟨(createFfmpegError_c7 "spawn ffmpeg ENOENT").1.mpr (Or.inr rfl), ?_⟩
  exact ((createFfmpegError_c7 "boom").2 (by decide)).2.1

/-! ## Formatters (`file-handler.ts`) -/

/-- JavaScript truncation toward zero (the rounding of the `%` operator). -/
def jsTrunc (x : ℚ) : ℤ := if x < 0 then ⌈x⌉ else ⌊x⌋

/-- JavaScript `%` on numbers: remainder with truncated division. -/
def jsMod (a b : ℚ) : ℚ := a - b * jsTrunc (a / b)

/-- Models `String.prototype.padStart(2, '0')`. -/
def padStart2 (s : String) : String :=
  if s.data.length ≥ 2 then s else String.mk (List.replicate (2 - s.data.length) '0' ++ s.data)

/-- Models `formatDuration` of `file-handler.ts`: `MM:SS` under one hour, else
`HH:MM:SS`, two-digit zero-padded, fractional seconds truncated by
`Math.floor`. -/
def formatDuration (seconds : ℚ) : String :=
  let hours : ℤ := ⌊seconds / 3600⌋
  let minutes : ℤ := ⌊jsMod seconds 3600 / 60⌋
  let secs : ℤ := ⌊jsMod seconds 60⌋
  if hours > 0 then
    padStart2 (toString hours) ++ ":" ++ padStart2 (toString minutes) ++ ":" ++
      padStart2 (toString secs)
  else padStart2 (toString minutes) ++ ":" ++ padStart2 (toString secs)

/-- Fuel-driven computation of `⌊log n / log 1024⌋` (the unit index `i` of
`formatBytes`); the fuel argument only forces termination and any fuel
`≥ n` computes the mathematical floor of the base-1024 logarithm. -/
def natLog1024Go : ℕ → ℕ → ℕ
  | 0, _ => 0
  | fuel + 1, n => if n < 1024 then 0 else natLog1024Go fuel (n / 1024) + 1

/-- Models `Math.floor(Math.log(bytes) / Math.log(1024))` for `bytes ≥ 1`. -/
def natLog1024 (n : ℕ) : ℕ := natLog1024Go n n

theorem natLog1024Go_eq_of (fuel n k : ℕ) (hn : n ≤ fuel)
    (h1 : 1024 ^ k ≤ n) (h2 : n < 1024 ^ (k + 1)) : natLog1024Go fuel n = k := by
  induction fuel generalizing n k with
  | zero =>
    have hn0 : n = 0 := Nat.le_zero.mp hn
    subst hn0
    have hpos : 0 < 1024 ^ k := by positivity
    omega
  | succ fuel ih =>
    by_cases hlt : n < 1024
    · have hk : k = 0 := by
        by_contra hk0
        have : 1024 ≤ 1024 ^ k := Nat.le_self_pow hk0 1024
        omega
      simp [natLog1024Go, hlt, hk]
    · have hk : k ≠ 0 := by
        rintro rfl
        simp at h2
        omega
      obtain ⟨k', rfl⟩ : ∃ k', k = k' + 1 := ⟨k - 1, by omega⟩
      have hdiv1 : 1024 ^ k' ≤ n / 1024 := by
        rw [Nat.le_div_iff_mul_le (by norm_num)]
        calc 1024 ^ k' * 1024 = 1024 ^ (k' + 1) := (pow_succ 1024 k').symm
          _ ≤ n := h1
      have hdiv2 : n / 1024 < 1024 ^ (k' + 1) := by
        rw [Nat.div_lt_iff_lt_mul (by norm_num)]
        calc n < 1024 ^ (k' + 1 + 1) := h2
          _ = 1024 ^ (k' + 1) * 1024 := pow_succ 1024 (k' + 1)
      have hfuel : n / 1024 ≤ fuel := by
        have : n / 1024 < n := Nat.div_lt_self (by omega) (by norm_num)
        omega
      simp only [natLog1024Go, hlt, if_false]
      rw [ih (n / 1024) k' hfuel hdiv1 hdiv2]

/-- Characterization: `natLog1024 n = k` on the interval
`1024^k ≤ n < 1024^(k+1)`. -/
theorem natLog1024_eq (n k : ℕ) (h1 : 1024 ^ k ≤ n) (h2 : n < 1024 ^ (k + 1)) :
    natLog1024 n = k :=
  natLog1024Go_eq_of n n k le_rfl h1 h2

/-- Digits of a fraction remainder, left-padded with zeros to width `w`. -/
def padLeftZeros (l : List Char) (w : ℕ) : List Char :=
  List.replicate (w - l.length) '0' ++ l

/-- Drop trailing `'0'` characters. -/
def stripTrailZeros (l : List Char) : List Char :=
  (l.reverse.dropWhile (fun c => c == '0')).reverse

/-- Models `parseFloat(q.toFixed(dm)).toString()` for a nonnegative `q` whose
integral part is in safe range: round to `dm` decimal places (half up, the
`toFixed` rule for positive numbers), then render with trailing zeros (and a
trailing decimal point) removed. -/
def trimFixed (q : ℚ) (dm : ℕ) : String :=
  if jsRound (q * (10 : ℚ) ^ dm) % (10 : ℤ) ^ dm = 0 then
    toString (jsRound (q * (10 : ℚ) ^ dm) / (10 : ℤ) ^ dm)
  else
    toString (jsRound (q * (10 : ℚ) ^ dm) / (10 : ℤ) ^ dm) ++ "." ++
      String.mk (stripTrailZeros
        (padLeftZeros (toString (jsRound (q * (10 : ℚ) ^ dm) % (10 : ℤ) ^ dm)).data dm))

/-- The unit list of `formatBytes`. -/
def byteSizes : List String := ["Bytes", "KB", "MB", "GB", "TB"]

/-- Models `formatBytes` of `file-handler.ts`: zero renders literally, otherwise the
value is scaled by `1024^i` for `i = ⌊log bytes / log 1024⌋`, rounded to
`decimals` (default 2) places, trailing zeros trimmed by the `parseFloat`
round-trip, and suffixed with the `i`-th unit. -/
def formatBytes (bytes : ℕ) (decimals : ℕ := 2) : String :=
  if bytes = 0 then "0 Bytes"
  else
    trimFixed ((bytes : ℚ) / (1024 : ℚ) ^ natLog1024 bytes) decimals ++ " " ++
      (byteSizes.getD (natLog1024 bytes) "undefined")

/-- C8: the byte formatter renders zero literally as `"0 Bytes"`, satisfies
`format_bytes(1536) = "1.5 KB"`, rounds to two decimal places (e.g.
`1134 ↦ "1.11 KB"`), and on every band `1024^i ≤ b < 1024^(i+1)` (i ≤ 4) it
is 1024-based: the value is scaled by `1024^i` and suffixed with the `i`-th
unit of Bytes/KB/MB/GB/TB. -/
theorem formatBytes_c8 :
    formatBytes 0 = "0 Bytes" ∧
    formatBytes 1536 = "1.5 KB" ∧
    formatBytes 1134 = "1.11 KB" ∧
    (∀ b : ℕ, 1 ≤ b → b < 1024 →
      formatBytes b = trimFixed ((b : ℚ) / (1024 : ℚ) ^ 0) 2 ++ " " ++ "Bytes") ∧
    (∀ b : ℕ, 1024 ≤ b → b < 1024 ^ 2 →
      formatBytes b = trimFixed ((b : ℚ) / (1024 : ℚ) ^ 1) 2 ++ " " ++ "KB") ∧
    (∀ b : ℕ, 1024 ^ 2 ≤ b → b < 1024 ^ 3 →
      formatBytes b = trimFixed ((b : ℚ) / (1024 : ℚ) ^ 2) 2 ++ " " ++ "MB") ∧
    (∀ b : ℕ, 1024 ^ 3 ≤ b → b < 1024 ^ 4 →
      formatBytes b = trimFixed ((b : ℚ) / (1024 : ℚ) ^ 3) 2 ++ " " ++ "GB") ∧
    (∀ b : ℕ, 1024 ^ 4 ≤ b → b < 1024 ^ 5 →
      formatBytes b = trimFixed ((b : ℚ) / (1024 : ℚ) ^ 4) 2 ++ " " ++ "TB") := by
  refine ⟨rfl, ?_, ?_, ?_, ?_, ?_, ?_, ?_⟩
  · have hlog : natLog1024 1536 = 1 := natLog1024_eq 1536 1 (by norm_num) (by norm_num)
    have h : jsRound (((1536 : ℕ) : ℚ) / (1024 : ℚ) ^ 1 * (10 : ℚ) ^ 2) = 150 := by
      unfold jsRound; norm_num
    rw [formatBytes, if_neg (by omega), hlog, trimFixed, h]
    norm_num
    rfl
  · have hlog : natLog1024 1134 = 1 := natLog1024_eq 1134 1 (by norm_num) (by norm_num)
    have h : jsRound (((1134 : ℕ) : ℚ) / (1024 : ℚ) ^ 1 * (10 : ℚ) ^ 2) = 111 := by
      unfold jsRound; norm_num
    rw [formatBytes, if_neg (by omega), hlog, trimFixed, h]
    norm_num
    rfl
  · intro b h1 h2
    have hlog : natLog1024 b = 0 := natLog1024_eq b 0 (by omega) (by norm_num; omega)
    rw [formatBytes, if_neg (by omega), hlog]
    rfl
  · intro b h1 h2
    have hlog : natLog1024 b = 1 := natLog1024_eq b 1 (by norm_num; omega) (by norm_num; omega)
    rw [formatBytes, if_neg (by omega), hlog]
    rfl
  · intro b h1 h2
    have hlog : natLog1024 b = 2 := natLog1024_eq b 2 (by norm_num; omega) (by norm_num; omega)
    rw [formatBytes, if_neg (by norm_num at h1 ⊢; omega), hlog]
    rfl
  · intro b h1 h2
    have hlog : natLog1024 b = 3 := natLog1024_eq b 3 (by norm_num; omega) (by norm_num; omega)
    rw [formatBytes, if_neg (by norm_num at h1 ⊢; omega), hlog]
    rfl
  · intro b h1 h2
    have hlog : natLog1024 b = 4 := natLog1024_eq b 4 (by norm_num; omega) (by norm_num; omega)
    rw [formatBytes, if_neg (by norm_num at h1 ⊢; omega), hlog]
    rfl

/-- C8 witness: the band property applied at `b = 4096` and `b = 2`. -/
theorem formatBytes_c8_witness :
    formatBytes 4096 = trimFixed ((4096 : ℚ) / (1024 : ℚ) ^ 1) 2 ++ " " ++ "KB" ∧
    formatBytes 2 = trimFixed ((2 : ℚ) / (1024 : ℚ) ^ 0) 2 ++ " " ++ "Bytes" := by
  refine ⟨formatBytes_c8.2.2.2.2.1 4096 (by norm_num) (by norm_num),
    formatBytes_c8.2.2.2.1 2 (by norm_num) (by norm_num)⟩

/-! ## Filesystem environment

The pipeline touches the filesystem through `fs`/`path`/`process.env`; a
call's view of that world is captured as an explicit record: which paths
name existing regular files, directory listings, the configured base and
home directories, and the `path.join`/`path.resolve` collaborators. -/

/-- The filesystem/environment collaborators of `validators.ts` and
`file-handler.ts`. -/
structure FsEnv where
  /-- Models `fs.existsSync(p) && fs.statSync(p).isFile()` (`fileExists`). -/
  fileExistsF : String → Bool
  /-- Models `fs.readdirSync(dir)`; `none` models a missing directory (a throw). -/
  dirListing : String → Option (List String)
  /-- Models `process.env.VIDEO_BASE_DIR` (`getVideoBaseDir`). -/
  baseDir : Option String
  /-- Models `process.env.HOME || process.env.USERPROFILE || ''`. -/
  homeDir : String
  /-- Models `path.join`. -/
  joinF : String → String → String
  /-- Models `path.resolve` against the current working directory. -/
  resolveF : String → String
  /-- Models `fs.readFileSync(p).toString('base64')` (`readFileAsBase64`). -/
  readB64 : String → String

/-- Models `SUPPORTED_VIDEO_FORMATS` of `types/index.ts`, in declaration order. -/
def SUPPORTED_VIDEO_FORMATS : List String :=
  [".mp4", ".webm", ".mov", ".avi", ".mkv", ".m4v", ".flv", ".wmv", ".gif",
   ".mpeg", ".mpg", ".3gp"]

/-- Models `path.isAbsolute` (POSIX). -/
def isAbsolute (p : String) : Bool := strStartsWith p "/"

/-- The `findWithExtensions` helper inside `resolveVideoPath`: try the path
as-is; when it has no extension, probe each supported format in order. -/
def findWithExtensions (env : FsEnv) (basePath : String) : Option String :=
  if env.fileExistsF basePath then some basePath
  else
    let ext := toLowerStr (extname basePath)
    if ext = "" then
      match SUPPORTED_VIDEO_FORMATS.find? (fun fmt => env.fileExistsF (basePath ++ fmt)) with
      | some fmt => some (basePath ++ fmt)
      | none => none
    else none

/-- Models `resolveVideoPath` of `validators.ts`. -/
def resolveVideoPath (env : FsEnv) (inputPath : String) : Option String :=
  if isAbsolute inputPath then findWithExtensions env inputPath
  else if strStartsWith inputPath "~" then
    findWithExtensions env (env.joinF env.homeDir (String.mk (inputPath.data.drop 1)))
  else
    match env.baseDir with
    | some bd => findWithExtensions env (env.joinF bd inputPath)
    | none => findWithExtensions env (env.resolveF inputPath)

/-- Models `listAvailableVideos` of `validators.ts` (missing base directory and
read failures both yield the empty list). -/
def listAvailableVideos (env : FsEnv) : List String :=
  match env.baseDir with
  | none => []
  | some bd =>
    match env.dirListing bd with
    | none => []
    | some files =>
      files.filter (fun f => SUPPORTED_VIDEO_FORMATS.contains (toLowerStr (extname f)))

/-- Models `isSupportedFormat` of `validators.ts`. -/
def isSupportedFormat (p : String) : Bool :=
  SUPPORTED_VIDEO_FORMATS.contains (toLowerStr (extname p))

/-- Models `getFileExtension` of `validators.ts`. -/
def getFileExtension (p : String) : String := toLowerStr (extname p)

/-- Models `normalizePath` of `validators.ts`: `~`-expansion then `path.resolve`. -/
def normalizePath (env : FsEnv) (filePath : String) : String :=
  if strStartsWith filePath "~" then
    env.resolveF (env.joinF env.homeDir (String.mk (filePath.data.drop 1)))
  else env.resolveF filePath

/-- Models `validateVideoPath` of `validators.ts` (the `VIDEO_BASE_DIR`-aware
variant used by the tools). -/
def validateVideoPath (env : FsEnv) (filePath : String) : Option VideoError :=
  if filePath = "" then
    some { code := .INVALID_PATH
           message := "Video path is required"
           suggestion := some "Provide a valid file path to a video file" }
  else
    match resolveVideoPath env filePath with
    | none =>
      some { code := .FILE_NOT_FOUND
             message := "Video not found: " ++ filePath
             suggestion := some (match env.baseDir with
               | none => "Check that the file path is correct and the file exists."
               | some bd =>
                 "Video not found in " ++ bd ++ "." ++
                   (if (listAvailableVideos env).isEmpty then
                     " No videos found in this directory."
                   else
                     " Available videos: " ++
                       String.intercalate ", " (listAvailableVideos env))) }
    | some resolvedPath =>
      if isSupportedFormat resolvedPath then none
      else
        some { code := .UNSUPPORTED_FORMAT
               message := "Unsupported video format: " ++ getFileExtension resolvedPath
               details := some (.extensionD (getFileExtension resolvedPath))
               suggestion := some ("Supported formats: " ++
                 String.intercalate ", " SUPPORTED_VIDEO_FORMATS) }

/-- Models `validateRange` of `validators.ts`.  (The `typeof`/`isNaN` guard of the
source cannot fire in the rational model, where every value is a number.) -/
def validateRange (value minV maxV : ℚ) (fieldName : String) : Option VideoError :=
  if value < minV ∨ value > maxV then
    some { code := .INVALID_PATH
           message := fieldName ++ " must be between " ++ numToString minV ++
             " and " ++ numToString maxV
           details := some (.rangeD value minV maxV)
           suggestion := some ("Adjust " ++ fieldName ++ " to be within the valid range") }
  else none

/-- The options record taken by `validateExtractFramesOptions`. -/
structure ExtractOptions where
  path : String
  interval : Option ℚ := none
  max_frames : Option ℚ := none
  quality : Option ℚ := none
  width : Option ℚ := none
  start_time : Option ℚ := none
  end_time : Option ℚ := none

/-- Models `validateExtractFramesOptions` of `validators.ts`: path, then each
numeric bound in source order, then the time-window checks; the first
failing check is returned. -/
def validateExtractFramesOptions (env : FsEnv) (options : ExtractOptions) :
    Option VideoError :=
  match validateVideoPath env options.path with
  | some e => some e
  | none =>
  match options.interval.bind (fun v => validateRange v (1/10) 60 "interval") with
  | some e => some e
  | none =>
  match options.max_frames.bind (fun v => validateRange v 1 500 "max_frames") with
  | some e => some e
  | none =>
  match options.quality.bind (fun v => validateRange v 1 100 "quality") with
  | some e => some e
  | none =>
  match options.width.bind (fun v => validateRange v 100 3840 "width") with
  | some e => some e
  | none =>
  match (match options.start_time with
         | some st =>
           if st < 0 then
             some { code := ErrorCode.INVALID_PATH
                    message := "start_time cannot be negative"
                    suggestion := some "Provide a non-negative start time in seconds" }
           else none
         | none => none) with
  | some e => some e
  | none =>
  match options.end_time, options.start_time with
  | some et, some st =>
    if et ≤ st then
      some { code := .INVALID_PATH
             message := "end_time must be greater than start_time"
             suggestion := some "Ensure end_time is after start_time" }
    else none
  | _, _ => none

/-- The error code of a validation outcome. -/
def errCode? (r : Option VideoError) : Option ErrorCode := r.map (·.code)

theorem findWithExtensions_exists (env : FsEnv) (b r : String)
    (h : findWithExtensions env b = some r) : env.fileExistsF r = true := by
  unfold findWithExtensions at h
  by_cases hex : env.fileExistsF b = true
  · simp [hex] at h
    rw [← h]
    exact hex
  · rw [if_neg (by simpa using hex)] at h
    by_cases hext : toLowerStr (extname b) = ""
    · simp only [hext, if_pos rfl] at h
      cases hfind : SUPPORTED_VIDEO_FORMATS.find? (fun fmt => env.fileExistsF (b ++ fmt)) with
      | none => rw [hfind] at h; exact absurd h (by simp)
      | some fmt =>
        rw [hfind] at h
        have hprop := List.find?_some hfind
        have : b ++ fmt = r := by simpa using h
        rw [← this]
        simpa using hprop
    · rw [if_neg hext] at h
      exact absurd h (by simp)

/-- C5: path resolution is total and idempotent on resolved outputs: an
absolute path naming an existing regular file resolves to itself unchanged;
an absolute extension-less candidate that does not itself exist resolves to
its concatenation with the first supported extension (in fixed declaration
order) that names an existing file, and to `none` when there is none; and
every path the resolver returns names an existing file (so when no candidate
matches, the result is `none` — an absence value, never a thrown error). -/
theorem resolveVideoPath_c5 :
    (∀ (env : FsEnv) (p : String), isAbsolute p = true → env.fileExistsF p = true →
      resolveVideoPath env p = some p) ∧
    (∀ (env : FsEnv) (p : String), isAbsolute p = true → env.fileExistsF p = false →
      extname p = "" →
      resolveVideoPath env p =
        (SUPPORTED_VIDEO_FORMATS.find? (fun fmt => env.fileExistsF (p ++ fmt))).map
          (fun fmt => p ++ fmt)) ∧
    (∀ (env : FsEnv) (p r : String), resolveVideoPath env p = some r →
      env.fileExistsF r = true) := by
  refine ⟨?_, ?_, ?_⟩
  · intro env p hab hex
    simp [resolveVideoPath, hab, findWithExtensions, hex]
  · intro env p hab hex hext
    have htl : toLowerStr (extname p) = "" := by rw [hext]; rfl
    simp only [resolveVideoPath, hab, if_pos rfl, findWithExtensions, hex,
      Bool.false_eq_true, if_neg, htl, if_pos rfl]
    cases SUPPORTED_VIDEO_FORMATS.find? (fun fmt => env.fileExistsF (p ++ fmt)) <;> simp
  · intro env p r h
    unfold resolveVideoPath at h
    cases hab : isAbsolute p with
    | true => rw [if_pos (by rw [hab])] at h; exact findWithExtensions_exists env p r h
    | false =>
      rw [if_neg (by rw [hab]; simp)] at h
      cases htld : strStartsWith p "~" with
      | true =>
        rw [if_pos (by rw [htld])] at h
        exact findWithExtensions_exists env _ r h
      | false =>
        rw [if_neg (by rw [htld]; simp)] at h
        cases hbd : env.baseDir with
        | some bd => rw [hbd] at h; exact findWithExtensions_exists env _ r h
        | none => rw [hbd] at h; exact findWithExtensions_exists env _ r h

/-- A concrete filesystem world: one video file `/videos/demo.mp4`, no base
directory, POSIX join/resolve stand-ins. -/
def envDemo : FsEnv where
  fileExistsF := fun s => s == "/videos/demo.mp4"
  dirListing := fun _ => none
  baseDir := none
  homeDir := "/home/user"
  joinF := fun a b => a ++ "/" ++ b
  resolveF := fun s => s
  readB64 := fun _ => "payload"

/-- C5 witness: resolving the existing absolute path `/videos/demo.mp4`
returns it unchanged, and the result indeed names an existing file. -/
theorem resolveVideoPath_c5_witness :
    resolveVideoPath envDemo "/videos/demo.mp4" = some "/videos/demo.mp4" ∧
    envDemo.fileExistsF "/videos/demo.mp4" = true := by
  have h1 : resolveVideoPath envDemo "/videos/demo.mp4" = some "/videos/demo.mp4" :=
    resolveVideoPath_c5.1 envDemo "/videos/demo.mp4" rfl rfl
  exact ⟨h1, resolveVideoPath_c5.2.2 envDemo "/videos/demo.mp4" "/videos/demo.mp4" h1⟩

/-- C4: with a path that passes path validation, each of `interval=0`,
`interval=61`, `quality=0`, `quality=101`, `width=50`, `max_frames=0`,
`max_frames=501` and `end_time ≤ start_time` is rejected with an error whose
code is `INVALID_PATH`; and validation is fail-fast: an input violating the
interval, max_frames, quality and width bounds at once returns exactly the
single interval error — the first check in source order — and never an
aggregate. -/
theorem validateExtractFramesOptions_c4 (env : FsEnv) (p : String)
    (hp : validateVideoPath env p = none) :
    errCode? (validateExtractFramesOptions env
      { path := p, interval := some 0, max_frames := some 30, quality := some 75,
        width := some 800 }) = some ErrorCode.INVALID_PATH ∧
    errCode? (validateExtractFramesOptions env
      { path := p, interval := some 61, max_frames := some 30, quality := some 75,
        width := some 800 }) = some ErrorCode.INVALID_PATH ∧
    errCode? (validateExtractFramesOptions env
      { path := p, interval := some 2, max_frames := some 30, quality := some 0,
        width := some 800 }) = some ErrorCode.INVALID_PATH ∧
    errCode? (validateExtractFramesOptions env
      { path := p, interval := some 2, max_frames := some 30, quality := some 101,
        width := some 800 }) = some ErrorCode.INVALID_PATH ∧
    errCode? (validateExtractFramesOptions env
      { path := p, interval := some 2, max_frames := some 30, quality := some 75,
        width := some 50 }) = some ErrorCode.INVALID_PATH ∧
    errCode? (validateExtractFramesOptions env
      { path := p, interval := some 2, max_frames := some 0, quality := some 75,
        width := some 800 }) = some ErrorCode.INVALID_PATH ∧
    errCode? (validateExtractFramesOptions env
      { path := p, interval := some 2, max_frames := some 501, quality := some 75,
        width := some 800 }) = some ErrorCode.INVALID_PATH ∧
    errCode? (validateExtractFramesOptions env
      { path := p, interval := some 2, max_frames := some 30, quality := some 75,
        width := some 800, start_time := some 5, end_time := some 5 }) =
      some ErrorCode.INVALID_PATH ∧
    validateExtractFramesOptions env
      { path := p, interval := some 0, max_frames := some 501, quality := some 101,
        width := some 50 } =
      validateRange 0 (1/10) 60 "interval" := by
  refine ⟨?_, ?_, ?_, ?_, ?_, ?_, ?_, ?_, ?_⟩ <;>
    · simp only [validateExtractFramesOptions, hp]
      norm_num [validateRange, errCode?]

/-- C4 witness: the rejections applied in the concrete world `envDemo` with
the existing video `/videos/demo.mp4`. -/
theorem validateExtractFramesOptions_c4_witness :
    errCode? (validateExtractFramesOptions envDemo
      { path := "/videos/demo.mp4", interval := some 0, max_frames := some 30,
        quality := some 75, width := some 800 }) = some ErrorCode.INVALID_PATH ∧
    errCode? (validateExtractFramesOptions envDemo
      { path := "/videos/demo.mp4", interval := some 2, max_frames := some 30,
        quality := some 75, width := some 800, start_time := some 5,
        end_time := some 5 }) = some ErrorCode.INVALID_PATH := by
  have hp : validateVideoPath envDemo "/videos/demo.mp4" = none := rfl
  exact ⟨(validateExtractFramesOptions_c4 envDemo "/videos/demo.mp4" hp).1,
    (validateExtractFramesOptions_c4 envDemo "/videos/demo.mp4" hp).2.2.2.2.2.2.2.1⟩

/-! ## JavaScript numeric parsing (for the probe document fields) -/

/-- Accumulate decimal digits into a natural number. -/
def charsToNatAcc : List Char → ℕ → ℕ
  | [], acc => acc
  | c :: t, acc => charsToNatAcc t (acc * 10 + (c.toNat - 48))

/-- Models `parseInt(s, 10)` on raw characters: optional sign then a decimal-digit
run; `none` models `NaN`. -/
def jsParseIntChars : List Char → Option ℤ
  | '-' :: rest =>
    (if (rest.takeWhile Char.isDigit).isEmpty then none
     else some (charsToNatAcc (rest.takeWhile Char.isDigit) 0 : ℤ)).map (fun n => -n)
  | '+' :: rest =>
    if (rest.takeWhile Char.isDigit).isEmpty then none
    else some (charsToNatAcc (rest.takeWhile Char.isDigit) 0 : ℤ)
  | l =>
    if (l.takeWhile Char.isDigit).isEmpty then none
    else some (charsToNatAcc (l.takeWhile Char.isDigit) 0 : ℤ)

/-- Magnitude part of `parseFloat`: digits, optionally a point and more
digits; `none` models `NaN`.  (Exponent notation never occurs in the probe
fields this repository parses.) -/
def jsParseFloatMag (l : List Char) : Option ℚ :=
  let ds := l.takeWhile Char.isDigit
  let rest := l.dropWhile Char.isDigit
  match rest with
  | '.' :: r2 =>
    let fs := r2.takeWhile Char.isDigit
    if ds.isEmpty ∧ fs.isEmpty then none
    else some ((charsToNatAcc ds 0 : ℚ) + (charsToNatAcc fs 0 : ℚ) / (10 : ℚ) ^ fs.length)
  | _ => if ds.isEmpty then none else some (charsToNatAcc ds 0 : ℚ)

/-- Models `parseFloat(s)`: optional sign then a decimal magnitude. -/
def jsParseFloatChars : List Char → Option ℚ
  | '-' :: rest => (jsParseFloatMag rest).map (fun q => -q)
  | '+' :: rest => jsParseFloatMag rest
  | l => jsParseFloatMag l

/-- Models `parseFloat` on strings; `none` models `NaN`. -/
def jsParseFloat? (s : String) : Option ℚ := jsParseFloatChars s.data

/-- Models `parseInt` on strings; `none` models `NaN`. -/
def jsParseInt? (s : String) : Option ℤ := jsParseIntChars s.data

/-- Models `String.prototype.split` with a one-character separator. -/
def splitCharAux (sep : Char) : List Char → List Char → List (List Char)
  | [], acc => [acc.reverse]
  | c :: t, acc =>
    if c == sep then acc.reverse :: splitCharAux sep t []
    else splitCharAux sep t (c :: acc)

/-- Split a character list at every occurrence of `sep`. -/
def splitChar (sep : Char) (l : List Char) : List (List Char) := splitCharAux sep l []

/-! ## Probe document model and metadata normalizer
(`ffmpeg-processor.ts`) -/

/-- One entry of `FFprobeResult.streams` (`types/index.ts`), restricted to
the fields the normalizer reads. -/
structure FFprobeStream where
  codec_type : String
  codec_name : Option String := none
  width : Option ℤ := none
  height : Option ℤ := none
  r_frame_rate : Option String := none

/-- Models `FFprobeResult.format`.  `duration`, `size` and `bit_rate` are the raw
strings of the probe document (`bit_rate` optional, matching the truthiness
guard in the source); `creation_time` is `format.tags?.creation_time`. -/
structure FFprobeFormat where
  duration : String
  size : String
  bit_rate : Option String := none
  creation_time : Option String := none

/-- The raw structured probe document. -/
structure FFprobeResult where
  streams : List FFprobeStream
  format : FFprobeFormat

/-- JavaScript `x || default` for an optional string: `undefined` and the
empty string are falsy. -/
def jsStrOr (o : Option String) (d : String) : String :=
  match o with
  | none => d
  | some s => if s = "" then d else s

/-- JavaScript `x || null` for an optional string. -/
def jsStrOrNull (o : Option String) : Option String :=
  match o with
  | none => none
  | some s => if s = "" then none else some s

/-- Rendering of an optional integer inside a template string (`undefined`
renders literally). -/
def optIntStr (o : Option ℤ) : String :=
  match o with
  | none => "undefined"
  | some i => toString i

/-- The FPS value parsed from `r_frame_rate` (`"num/den"` or a plain
decimal), before rounding.  `NaN` and division by zero — possible only for
probe strings ffprobe does not emit — collapse to `0` in the rational
model. -/
def parseFps (videoStream : Option FFprobeStream) : ℚ :=
  match videoStream with
  | none => 0
  | some vs =>
    match vs.r_frame_rate with
    | none => 0
    | some s =>
      match splitChar '/' s.data with
      | [] => 0
      | [num] => (jsParseFloatChars num).getD 0
      | num :: den :: _ =>
        if den.isEmpty then (jsParseFloatChars num).getD 0
        else ((jsParseIntChars num).getD 0 : ℚ) / ((jsParseIntChars den).getD 0 : ℚ)

/-- Models `VideoMetadata` of `types/index.ts`. -/
structure VideoMetadata where
  filename : String
  filepath : String
  duration : String
  duration_seconds : ℚ
  resolution : String
  width : ℤ
  height : ℤ
  fps : ℚ
  codec : String
  audio_codec : Option String
  file_size : String
  file_size_bytes : ℤ
  has_audio : Bool
  bitrate : String
  creation_time : Option String := none

/-- Models `parseVideoMetadata` of `ffmpeg-processor.ts`: pure transform of the raw
probe document into `VideoMetadata` (first video stream / first audio
stream, `parseFloat(duration) || 0`, `parseInt(size) || 0`, FPS rounded to
two decimals, `1024`-based size formatting). -/
def parseVideoMetadata (env : FsEnv) (filePath : String)
    (probeResult : FFprobeResult) : VideoMetadata :=
  let normalizedPath := normalizePath env filePath
  let videoStream := probeResult.streams.find? (fun s => s.codec_type == "video")
  let audioStream := probeResult.streams.find? (fun s => s.codec_type == "audio")
  let format := probeResult.format
  let durationSeconds : ℚ := (jsParseFloat? format.duration).getD 0
  let fps := parseFps videoStream
  let fileSizeBytes : ℤ := (jsParseInt? format.size).getD 0
  { filename := getFilename normalizedPath
    filepath := normalizedPath
    duration := formatDuration durationSeconds
    duration_seconds := durationSeconds
    resolution :=
      match videoStream with
      | some vs => optIntStr vs.width ++ "x" ++ optIntStr vs.height
      | none => "unknown"
    width := (videoStream.bind (fun vs => vs.width)).getD 0
    height := (videoStream.bind (fun vs => vs.height)).getD 0
    fps := (jsRound (fps * 100) : ℚ) / 100
    codec := jsStrOr (videoStream.bind (fun vs => vs.codec_name)) "unknown"
    audio_codec := jsStrOrNull (audioStream.bind (fun a => a.codec_name))
    file_size := formatBytes fileSizeBytes.toNat
    file_size_bytes := fileSizeBytes
    has_audio := audioStream.isSome
    bitrate :=
      match format.bit_rate with
      | none => "unknown"
      | some s =>
        if s = "" then "unknown"
        else formatBytes ((jsParseInt? s).getD 0).toNat ++ "/s"
    creation_time := format.creation_time }

theorem parseVideoMetadata_duration_seconds (env : FsEnv) (fp : String)
    (probe : FFprobeResult) :
    (parseVideoMetadata env fp probe).duration_seconds =
      (jsParseFloat? probe.format.duration).getD 0 := rfl

theorem parseVideoMetadata_has_audio (env : FsEnv) (fp : String)
    (probe : FFprobeResult) :
    (parseVideoMetadata env fp probe).has_audio =
      (probe.streams.find? (fun s => s.codec_type == "audio")).isSome := rfl

theorem parseVideoMetadata_audio_codec (env : FsEnv) (fp : String)
    (probe : FFprobeResult) :
    (parseVideoMetadata env fp probe).audio_codec =
      jsStrOrNull ((probe.streams.find? (fun s => s.codec_type == "audio")).bind
        (fun a => a.codec_name)) := rfl

/-- A probe document with an audio stream that carries no codec name and a
format block reporting a negative duration. -/
def probeNoCodecNegDur : FFprobeResult :=
  { streams := [{ codec_type := "audio" }]
    format := { duration := "-5", size := "0" } }

/-- C6 (counterexample): on a probe document whose audio stream lacks a
codec name and whose format reports duration `"-5"`, the normalizer emits
`duration_seconds = -5 < 0` and `has_audio = true` with `audio_codec = null`
— both halves of the claimed invariant fail. -/
theorem parseVideoMetadata_c6_cex :
    (parseVideoMetadata envDemo "/videos/demo.mp4" probeNoCodecNegDur).duration_seconds < 0 ∧
    (parseVideoMetadata envDemo "/videos/demo.mp4" probeNoCodecNegDur).has_audio = true ∧
    (parseVideoMetadata envDemo "/videos/demo.mp4" probeNoCodecNegDur).audio_codec = none := by
  refine ⟨?_, ?_, ?_⟩
  · rw [parseVideoMetadata_duration_seconds]
    have h : jsParseFloat? probeNoCodecNegDur.format.duration =
        some (-((5 : ℕ) : ℚ)) := rfl
    rw [h]
    norm_num
  · rw [parseVideoMetadata_has_audio]
    rfl
  · rw [parseVideoMetadata_audio_codec]
    rfl

/-- C6 (amended): the invariant holds for every probe document whose
duration field does not parse to a negative number and whose audio streams
all carry a nonempty codec name: then `duration_seconds ≥ 0` and
`has_audio` holds exactly when `audio_codec` is non-null. -/
theorem parseVideoMetadata_c6 (env : FsEnv) (fp : String) (probe : FFprobeResult)
    (hdur : ∀ q, jsParseFloat? probe.format.duration = some q → 0 ≤ q)
    (haud : ∀ s ∈ probe.streams, s.codec_type = "audio" →
      ∃ c, s.codec_name = some c ∧ c ≠ "") :
    0 ≤ (parseVideoMetadata env fp probe).duration_seconds ∧
    ((parseVideoMetadata env fp probe).has_audio = true ↔
      (parseVideoMetadata env fp probe).audio_codec ≠ none) := by
  constructor
  · rw [parseVideoMetadata_duration_seconds]
    cases h : jsParseFloat? probe.format.duration with
    | none => simp
    | some q => simpa using hdur q h
  · rw [parseVideoMetadata_has_audio, parseVideoMetadata_audio_codec]
    cases hfind : probe.streams.find? (fun s => s.codec_type == "audio") with
    | none => simp [jsStrOrNull]
    | some a =>
      have hmem := List.mem_of_find?_eq_some hfind
      have hct : (a.codec_type == "audio") = true :=
        @List.find?_some _ (fun s => s.codec_type == "audio") a probe.streams hfind
      obtain ⟨c, hc, hne⟩ := haud a hmem (by simpa using hct)
      simp [jsStrOrNull, hc, hne]

/-- A healthy probe document: one h264 video stream, one aac audio stream,
positive duration. -/
def probeDemo : FFprobeResult :=
  { streams :=
      [{ codec_type := "video", codec_name := some "h264", width := some 640,
         height := some 360, r_frame_rate := some "30/1" },
       { codec_type := "audio", codec_name := some "aac" }]
    format := { duration := "10.5", size := "2048", bit_rate := some "1536" } }

/-- C6 witness: the amended invariant applied to the healthy document. -/
theorem parseVideoMetadata_c6_witness :
    0 ≤ (parseVideoMetadata envDemo "/videos/demo.mp4" probeDemo).duration_seconds ∧
    ((parseVideoMetadata envDemo "/videos/demo.mp4" probeDemo).has_audio = true ↔
      (parseVideoMetadata envDemo "/videos/demo.mp4" probeDemo).audio_codec ≠ none) := by
  refine parseVideoMetadata_c6 envDemo "/videos/demo.mp4" probeDemo ?_ ?_
  · intro q hq
    have h : jsParseFloat? probeDemo.format.duration =
        some (((10 : ℕ) : ℚ) + ((5 : ℕ) : ℚ) / (10 : ℚ) ^ (1 : ℕ)) := rfl
    rw [h] at hq
    obtain rfl := Option.some.inj hq
    positivity
  · intro s hs hct
    simp only [probeDemo, List.mem_cons, List.mem_singleton] at hs
    rcases hs with h | h | h
    · subst h; simp at hct
    · subst h; exact ⟨"aac", rfl, by decide⟩
    · simp at h

/-! ## Frame assembly (`ffmpeg-processor.ts` / the extract-frames tool) -/

/-- Models `ExtractedFrame` of `types/index.ts`. -/
structure ExtractedFrame where
  index : ℕ
  timestamp : String
  timestamp_seconds : ℚ
  image : String
  mime_type : String
deriving DecidableEq

/-- The frame-building loop shared (verbatim, in two copies) by
`extractFrames` in `ffmpeg-processor.ts` and `readExistingFramesFromDisk`
in the extract-frames tool: the `i`-th file becomes frame `i` with
`timestamp_seconds = base + i * interval`. -/
def framesLoop (readB64 : String → String) (interval base : ℚ) :
    ℕ → List String → List ExtractedFrame
  | _, [] => []
  | i, f :: rest =>
    { index := i
      timestamp := formatDuration (base + (i : ℚ) * interval)
      timestamp_seconds := base + (i : ℚ) * interval
      image := readB64 f
      mime_type := "image/jpeg" } :: framesLoop readB64 interval base (i + 1) rest

/-- The frame-assembly loop of `extractFrames` in `ffmpeg-processor.ts`
(`(startTime || 0) + i * interval`, `startTime` optional). -/
def ffmpegProcessorFrames (readB64 : String → String) (frameFiles : List String)
    (interval : ℚ) (startTime : Option ℚ) : List ExtractedFrame :=
  framesLoop readB64 interval (startTime.getD 0) 0 frameFiles

/-- Models `readExistingFramesFromDisk` of the extract-frames tool (the
`startTime` parameter defaults to 0 when the caller passes `undefined`). -/
def readExistingFramesFromDisk (readB64 : String → String) (framePaths : List String)
    (interval : ℚ) (startTime : ℚ := 0) : List ExtractedFrame :=
  framesLoop readB64 interval startTime 0 framePaths

theorem framesLoop_length (readB64 : String → String) (interval base : ℚ) :
    ∀ (fs : List String) (i : ℕ),
      (framesLoop readB64 interval base i fs).length = fs.length := by
  intro fs
  induction fs with
  | nil => intro i; rfl
  | cons f rest ih => intro i; simp [framesLoop, ih]

theorem framesLoop_get (readB64 : String → String) (interval base : ℚ) :
    ∀ (fs : List String) (i k : ℕ) (h : k < (framesLoop readB64 interval base i fs).length),
      ((framesLoop readB64 interval base i fs).get ⟨k, h⟩).index = i + k ∧
      ((framesLoop readB64 interval base i fs).get ⟨k, h⟩).timestamp_seconds =
        base + ((i + k : ℕ) : ℚ) * interval := by
  intro fs
  induction fs with
  | nil => intro i k h; simp [framesLoop] at h
  | cons f rest ih =>
    intro i k h
    cases k with
    | zero => simp [framesLoop]
    | succ k =>
      have h' : k < (framesLoop readB64 interval base (i + 1) rest).length := by
        simpa [framesLoop] using h
      have := ih (i + 1) k h'
      constructor
      · show ((framesLoop readB64 interval base (i + 1) rest).get ⟨k, h'⟩).index = i + (k + 1)
        rw [this.1]; omega
      · show ((framesLoop readB64 interval base (i + 1) rest).get ⟨k, h'⟩).timestamp_seconds =
          base + ((i + (k + 1) : ℕ) : ℚ) * interval
        rw [this.2]
        congr 2
        push_cast
        ring

/-! ## ffmpeg argument derivation (`extractFrames` in
`ffmpeg-processor.ts`) -/

/-- The input-side seek arguments: `-ss startTime` exactly when a start time
is given and positive. -/
def seekArgs (startTime : Option ℚ) : List String :=
  match startTime with
  | some st => if st > 0 then ["-ss", numToString st] else []
  | none => []

/-- The output-side duration limit: `endTime - startTime` when both are
given, `endTime` alone when only it is, nothing otherwise. -/
def durationArgs (startTime endTime : Option ℚ) : List String :=
  match endTime, startTime with
  | some et, some st => ["-t", numToString (et - st)]
  | some et, none => ["-t", numToString et]
  | none, _ => []

/-- The full ffmpeg argument list built by `extractFrames`: seek, input,
duration limit, fps/scale filters, native quality, frame cap, output
pattern. -/
def ffmpegExtractArgs (normalizedPath : String) (interval maxFrames quality width : ℚ)
    (startTime endTime : Option ℚ) (outputPattern : String) : List String :=
  seekArgs startTime ++ ["-i", normalizedPath] ++ durationArgs startTime endTime ++
    ["-vf", "fps=1/" ++ numToString interval ++ "," ++ "scale=" ++ numToString width ++ ":-1"] ++
    ["-q:v", toString (qualityToNative quality)] ++
    ["-frames:v", numToString maxFrames] ++
    [outputPattern]

/-- C3: assembled frames carry zero-based consecutive indices and
`timestamp_seconds = start_time (or 0) + index * interval` — both on the
fresh decoder path (`extractFrames`) and on the re-read-from-disk path
(`readExistingFramesFromDisk`); timestamps are non-decreasing in the index
for a nonnegative interval; and three produced files with `start_time = 5`,
`interval = 2` yield timestamps exactly `[5, 7, 9]`. -/
theorem extractedFrames_c3 :
    (∀ (readB64 : String → String) (files : List String) (iv : ℚ) (st : Option ℚ)
      (k : ℕ) (h : k < (ffmpegProcessorFrames readB64 files iv st).length),
      ((ffmpegProcessorFrames readB64 files iv st).get ⟨k, h⟩).index = k ∧
      ((ffmpegProcessorFrames readB64 files iv st).get ⟨k, h⟩).timestamp_seconds =
        st.getD 0 + (k : ℚ) * iv) ∧
    (∀ (readB64 : String → String) (files : List String) (iv st : ℚ)
      (k : ℕ) (h : k < (readExistingFramesFromDisk readB64 files iv st).length),
      ((readExistingFramesFromDisk readB64 files iv st).get ⟨k, h⟩).index = k ∧
      ((readExistingFramesFromDisk readB64 files iv st).get ⟨k, h⟩).timestamp_seconds =
        st + (k : ℚ) * iv) ∧
    (∀ (readB64 : String → String) (files : List String) (iv : ℚ) (st : Option ℚ),
      0 ≤ iv → ∀ (j k : ℕ) (hj : j < (ffmpegProcessorFrames readB64 files iv st).length)
        (hk : k < (ffmpegProcessorFrames readB64 files iv st).length), j ≤ k →
        ((ffmpegProcessorFrames readB64 files iv st).get ⟨j, hj⟩).timestamp_seconds ≤
        ((ffmpegProcessorFrames readB64 files iv st).get ⟨k, hk⟩).timestamp_seconds) ∧
    ((ffmpegProcessorFrames (fun _ => "payload") ["f1", "f2", "f3"] 2 (some 5)).map
      (fun f => f.timestamp_seconds) = [5, 7, 9]) := by
  have hbase : ∀ (readB64 : String → String) (files : List String) (iv base : ℚ)
      (k : ℕ) (h : k < (framesLoop readB64 iv base 0 files).length),
      ((framesLoop readB64 iv base 0 files).get ⟨k, h⟩).index = k ∧
      ((framesLoop readB64 iv base 0 files).get ⟨k, h⟩).timestamp_seconds =
        base + (k : ℚ) * iv := by
    intro readB64 files iv base k h
    obtain ⟨h1, h2⟩ := framesLoop_get readB64 iv base files 0 k h
    simp only [Nat.zero_add] at h1 h2
    exact ⟨h1, h2⟩
  refine ⟨?_, ?_, ?_, ?_⟩
  · intro readB64 files iv st k h
    exact hbase readB64 files iv (st.getD 0) k h
  · intro readB64 files iv st k h
    exact hbase readB64 files iv st k h
  · intro readB64 files iv st hiv j k hj hk hjk
    obtain ⟨-, htj⟩ := hbase readB64 files iv (st.getD 0) j hj
    obtain ⟨-, htk⟩ := hbase readB64 files iv (st.getD 0) k hk
    unfold ffmpegProcessorFrames
    rw [htj, htk]
    have hcast : (j : ℚ) ≤ (k : ℚ) := by exact_mod_cast hjk
    have := mul_le_mul_of_nonneg_right hcast hiv
    linarith
  · show (framesLoop (fun _ => "payload") 2 ((some (5 : ℚ)).getD 0) 0 ["f1", "f2", "f3"]).map
      (fun f => f.timestamp_seconds) = [5, 7, 9]
    simp [framesLoop]
    norm_num

/-- C3 witness: the index/timestamp law applied to the second of three
frames re-read from disk with `interval = 2`, `start_time = 5`. -/
theorem extractedFrames_c3_witness :
    ((readExistingFramesFromDisk (fun _ => "payload") ["f1", "f2", "f3"] 2 5).get
      ⟨1, by simp [readExistingFramesFromDisk, framesLoop]⟩).index = 1 ∧
    ((readExistingFramesFromDisk (fun _ => "payload") ["f1", "f2", "f3"] 2 5).get
      ⟨1, by simp [readExistingFramesFromDisk, framesLoop]⟩).timestamp_seconds =
      5 + (1 : ℚ) * 2 := by
  have h := extractedFrames_c3.2.1 (fun _ => "payload") ["f1", "f2", "f3"] 2 5 1
    (by simp [readExistingFramesFromDisk, framesLoop])
  exact ⟨h.1, by rw [h.2]; norm_num⟩

/-- C9: when `start_time` is absent, validation puts no constraint on
`end_time` — a zero or negative `end_time` passes (all other parameters in
range) — and the decoder argument derivation emits the `end_time` value
unmodified as the output-side duration limit `-t end_time`, which occurs as
a contiguous segment of the full argument list. -/
theorem endTimeValidation_c9 (env : FsEnv) (p : String) (i mf q w et : ℚ)
    (hp : validateVideoPath env p = none)
    (hi1 : 1/10 ≤ i) (hi2 : i ≤ 60) (hmf1 : 1 ≤ mf) (hmf2 : mf ≤ 500)
    (hq1 : 1 ≤ q) (hq2 : q ≤ 100) (hw1 : 100 ≤ w) (hw2 : w ≤ 3840)
    (het : et ≤ 0) :
    validateExtractFramesOptions env
      { path := p, interval := some i, max_frames := some mf, quality := some q,
        width := some w, start_time := none, end_time := some et } = none ∧
    durationArgs none (some et) = ["-t", numToString et] ∧
    ∀ (np op : String),
      ["-t", numToString et] <:+: ffmpegExtractArgs np i mf q w none (some et) op := by
  refine ⟨?_, rfl, ?_⟩
  · have h1 : validateRange i (1/10) 60 "interval" = none := by
      rw [validateRange, if_neg (by push_neg; exact ⟨hi1, hi2⟩)]
    have h2 : validateRange mf 1 500 "max_frames" = none := by
      rw [validateRange, if_neg (by push_neg; exact ⟨hmf1, hmf2⟩)]
    have h3 : validateRange q 1 100 "quality" = none := by
      rw [validateRange, if_neg (by push_neg; exact ⟨hq1, hq2⟩)]
    have h4 : validateRange w 100 3840 "width" = none := by
      rw [validateRange, if_neg (by push_neg; exact ⟨hw1, hw2⟩)]
    simp only [validateExtractFramesOptions, hp, Option.some_bind, h1, h2, h3, h4]
  · intro np op
    refine ⟨seekArgs none ++ ["-i", np],
      ["-vf", "fps=1/" ++ numToString i ++ "," ++ "scale=" ++ numToString w ++ ":-1"] ++
        ["-q:v", toString (qualityToNative q)] ++ ["-frames:v", numToString mf] ++ [op], ?_⟩
    simp [ffmpegExtractArgs, seekArgs, durationArgs, List.append_assoc]

/-- C9 witness: a negative `end_time = -3` with no `start_time` passes
validation in the concrete world and `-t -3` lands in the argument list. -/
theorem endTimeValidation_c9_witness :
    validateExtractFramesOptions envDemo
      { path := "/videos/demo.mp4", interval := some 2, max_frames := some 30,
        quality := some 75, width := some 800, start_time := none,
        end_time := some (-3) } = none ∧
    ["-t", numToString (-3)] <:+:
      ffmpegExtractArgs "/videos/demo.mp4" 2 30 75 800 none (some (-3))
        "/tmp/frames/frame_%04d.jpg" := by
  have h := endTimeValidation_c9 envDemo "/videos/demo.mp4" 2 30 75 800 (-3) rfl
    (by norm_num) (by norm_num) (by norm_num) (by norm_num) (by norm_num)
    (by norm_num) (by norm_num) (by norm_num) (by norm_num)
  exact ⟨h.1, h.2.2 "/videos/demo.mp4" "/tmp/frames/frame_%04d.jpg"⟩

/-! ## The extract-frames tool: persistent-output reuse and cleanup

The tool-level `extractFrames` orchestrates validation, path resolution,
probing (`ffprobe`), the cached-directory check, and the decoder invocation.
The two subprocess collaborators are oracles in the environment; the trace
records whether the decoder was invoked and which directories the tool
removed (`cleanupTempDir` calls). -/

/-- Models `listFilesWithExtension` of `file-handler.ts`: list a directory, keep
names ending in `ext`, join each onto the directory, and sort; `none` when
`readdirSync` throws. -/
def listFilesWithExtension (env : FsEnv) (dirPath ext : String) : Option (List String) :=
  (env.dirListing dirPath).map (fun files =>
    sortStrings ((files.filter (fun f => strEndsWith f ext)).map (fun f => env.joinF dirPath f)))

/-- Models `getExistingFrames` of the extract-frames tool: the `.jpg` files of the
persistent directory, the empty list when listing throws. -/
def getExistingFrames (env : FsEnv) (dirPath : String) : List String :=
  (listFilesWithExtension env dirPath ".jpg").getD []

/-- The input record of the `extract_frames` tool (post-schema shape). -/
structure ExtractFramesInput where
  path : String
  interval : Option ℚ := none
  max_frames : Option ℚ := none
  quality : Option ℚ := none
  width : Option ℚ := none
  start_time : Option ℚ := none
  end_time : Option ℚ := none
  output_dir : Option String := none

/-- Models `extraction_info` of the tool response. -/
structure ExtractionInfo where
  total_frames_extracted : ℕ
  interval_used : ℚ
  quality : ℚ
  width : ℚ

/-- The success payload of the tool response. -/
structure ExtractFramesResponse where
  metadata : VideoMetadata
  frames : List ExtractedFrame
  extraction_info : ExtractionInfo
  frame_paths : Option (List String) := none
  output_directory : Option String := none

/-- Models `ExtractFramesResult`: success or a classified error. -/
inductive ExtractFramesResult where
  | ok (r : ExtractFramesResponse)
  | err (e : VideoError)

/-- What a successful `ffmpegExtractFrames` run returns to the tool. -/
structure FfmpegExtractOutcome where
  frames : List ExtractedFrame
  tempDir : String
  framePaths : Option (List String) := none

/-- The decoder invocation as an oracle: a successful outcome or the thrown
diagnostic text. -/
inductive DecoderOutcome where
  | ok (res : FfmpegExtractOutcome)
  | err (msg : String)

/-- One call's world: the filesystem view plus the outcomes the two
subprocess collaborators would produce if invoked. -/
structure ToolEnv where
  fs : FsEnv
  /-- outcome of `ffprobe` on the resolved path (`getVideoInfo`) -/
  probe : Except String FFprobeResult
  /-- outcome of `ffmpegExtractFrames` if the tool invokes it -/
  decoder : DecoderOutcome

/-- Effect trace of one tool call: whether the decoder ran, and every
directory the tool removed (`cleanupTempDir`). -/
structure ExtractTrace where
  decoderInvoked : Bool
  removedDirs : List String
deriving DecidableEq

/-- The no-effect trace. -/
def noInvoke : ExtractTrace := { decoderInvoked := false, removedDirs := [] }

/-- The decoder leg of the tool: invoke `ffmpegExtractFrames`; on success,
clean the scratch directory unless a persistent output directory is in use,
and attach `frame_paths`/`output_directory` when persistent output produced
paths; on a throw the scratch variable is still null, so nothing is
removed. -/
def runDecoderStep (env : ToolEnv) (metadata : VideoMetadata)
    (interval quality width : ℚ) (output_dir : Option String) :
    ExtractFramesResult × ExtractTrace :=
  match env.decoder with
  | .err msg =>
    (.err (createFfmpegError msg), { decoderInvoked := true, removedDirs := [] })
  | .ok res =>
    (.ok { metadata := metadata
           frames := res.frames
           extraction_info :=
             { total_frames_extracted := res.frames.length
               interval_used := interval, quality := quality, width := width }
           frame_paths :=
             if output_dir.isSome && res.framePaths.isSome then res.framePaths else none
           output_directory :=
             if output_dir.isSome && res.framePaths.isSome then output_dir else none },
     { decoderInvoked := true
       removedDirs := if output_dir.isSome then [] else [res.tempDir] })

/-- The post-probe leg of the tool: with a persistent `output_dir`, a
non-empty listing is reused as the frame sequence without touching the
decoder (`ensureDir` on the empty case creates, never removes); otherwise
extraction runs. -/
def extractFramesToolRest (env : ToolEnv) (input : ExtractFramesInput)
    (metadata : VideoMetadata) : ExtractFramesResult × ExtractTrace :=
  match input.output_dir with
  | some d =>
    if 0 < (getExistingFrames env.fs d).length then
      (.ok { metadata := metadata
             frames := readExistingFramesFromDisk env.fs.readB64
               (getExistingFrames env.fs d) (input.interval.getD 2)
               (input.start_time.getD 0)
             extraction_info :=
               { total_frames_extracted :=
                   (readExistingFramesFromDisk env.fs.readB64
                     (getExistingFrames env.fs d) (input.interval.getD 2)
                     (input.start_time.getD 0)).length
                 interval_used := input.interval.getD 2
                 quality := input.quality.getD 75
                 width := input.width.getD 800 }
             frame_paths := some (getExistingFrames env.fs d)
             output_directory := some d },
       noInvoke)
    else
      runDecoderStep env metadata (input.interval.getD 2) (input.quality.getD 75)
        (input.width.getD 800) (some d)
  | none =>
    runDecoderStep env metadata (input.interval.getD 2) (input.quality.getD 75)
      (input.width.getD 800) none

/-- The tool-level `extractFrames` of the extract-frames tool: defaults,
validation, path resolution, probe, duration guard, then the
persistent-reuse/extraction leg. -/
def extractFramesTool (env : ToolEnv) (input : ExtractFramesInput) :
    ExtractFramesResult × ExtractTrace :=
  match validateExtractFramesOptions env.fs
      { path := input.path, interval := some (input.interval.getD 2),
        max_frames := some (input.max_frames.getD 30),
        quality := some (input.quality.getD 75),
        width := some (input.width.getD 800),
        start_time := input.start_time, end_time := input.end_time } with
  | some e => (.err e, noInvoke)
  | none =>
  match resolveVideoPath env.fs input.path with
  | none =>
    (.err { code := .FILE_NOT_FOUND
            message := "Could not resolve video path: " ++ input.path },
     noInvoke)
  | some resolvedPath =>
  match env.probe with
  | .error msg => (.err (createFfmpegError msg), noInvoke)
  | .ok probeResult =>
  match input.start_time with
  | some st =>
    if st ≥ (parseVideoMetadata env.fs resolvedPath probeResult).duration_seconds then
      (.err { code := .INVALID_PATH
              message := "start_time (" ++ numToString st ++
                "s) exceeds video duration (" ++
                numToString (parseVideoMetadata env.fs resolvedPath
                  probeResult).duration_seconds ++ "s)"
              suggestion := some ("Use a start_time less than " ++
                numToString (parseVideoMetadata env.fs resolvedPath
                  probeResult).duration_seconds ++ " seconds") },
       noInvoke)
    else
      extractFramesToolRest env input (parseVideoMetadata env.fs resolvedPath probeResult)
  | none =>
    extractFramesToolRest env input (parseVideoMetadata env.fs resolvedPath probeResult)

theorem extractFramesToolRest_cache (env : ToolEnv) (input : ExtractFramesInput)
    (metadata : VideoMetadata) (d : String) (hd : input.output_dir = some d)
    (hlen : 0 < (getExistingFrames env.fs d).length) :
    extractFramesToolRest env input metadata =
      (.ok { metadata := metadata
             frames := readExistingFramesFromDisk env.fs.readB64
               (getExistingFrames env.fs d) (input.interval.getD 2)
               (input.start_time.getD 0)
             extraction_info :=
               { total_frames_extracted :=
                   (readExistingFramesFromDisk env.fs.readB64
                     (getExistingFrames env.fs d) (input.interval.getD 2)
                     (input.start_time.getD 0)).length
                 interval_used := input.interval.getD 2
                 quality := input.quality.getD 75
                 width := input.width.getD 800 }
             frame_paths := some (getExistingFrames env.fs d)
             output_directory := some d },
       noInvoke) := by
  unfold extractFramesToolRest
  rw [hd]
  dsimp only
  rw [if_pos hlen]

/-- C2: with a persistent `output_dir` that already holds at least one
image file, the tool never invokes the decoder and removes no directory, on
every path — and whenever the call succeeds, the frames are exactly the
existing files (sorted) re-read from disk with
`timestamp_seconds = start_time (or 0) + index * interval` from the
request's parameters, with `frame_paths` the existing files and
`output_directory` the caller's directory. -/
theorem extractFramesTool_c2 (env : ToolEnv) (input : ExtractFramesInput) (d : String)
    (hd : input.output_dir = some d)
    (hne : getExistingFrames env.fs d ≠ []) :
    (extractFramesTool env input).2.decoderInvoked = false ∧
    (extractFramesTool env input).2.removedDirs = [] ∧
    ∀ resp, (extractFramesTool env input).1 = .ok resp →
      resp.frames = readExistingFramesFromDisk env.fs.readB64
        (getExistingFrames env.fs d) (input.interval.getD 2)
        (input.start_time.getD 0) ∧
      resp.frame_paths = some (getExistingFrames env.fs d) ∧
      resp.output_directory = some d ∧
      resp.extraction_info.total_frames_extracted =
        (getExistingFrames env.fs d).length := by
  have hlen : 0 < (getExistingFrames env.fs d).length := List.length_pos.mpr hne
  have hrest : ∀ metadata, extractFramesToolRest env input metadata =
      (.ok { metadata := metadata
             frames := readExistingFramesFromDisk env.fs.readB64
               (getExistingFrames env.fs d) (input.interval.getD 2)
               (input.start_time.getD 0)
             extraction_info :=
               { total_frames_extracted :=
                   (readExistingFramesFromDisk env.fs.readB64
                     (getExistingFrames env.fs d) (input.interval.getD 2)
                     (input.start_time.getD 0)).length
                 interval_used := input.interval.getD 2
                 quality := input.quality.getD 75
                 width := input.width.getD 800 }
             frame_paths := some (getExistingFrames env.fs d)
             output_directory := some d },
       noInvoke) :=
    fun metadata => extractFramesToolRest_cache env input metadata d hd hlen
  have hrd : (readExistingFramesFromDisk env.fs.readB64
      (getExistingFrames env.fs d) (input.interval.getD 2)
      (input.start_time.getD 0)).length = (getExistingFrames env.fs d).length :=
    framesLoop_length env.fs.readB64 (input.interval.getD 2)
      (input.start_time.getD 0) (getExistingFrames env.fs d) 0
  unfold extractFramesTool
  split
  · exact ⟨rfl, rfl, fun resp hr => by simp at hr⟩
  · split
    · exact ⟨rfl, rfl, fun resp hr => by simp at hr⟩
    · split
      · exact ⟨rfl, rfl, fun resp hr => by simp at hr⟩
      · split
        · split
          · exact ⟨rfl, rfl, fun resp hr => by simp at hr⟩
          · rw [hrest]
            refine ⟨rfl, rfl, fun resp hr => ?_⟩
            obtain rfl := (ExtractFramesResult.ok.inj hr).symm
            exact ⟨rfl, rfl, rfl, hrd⟩
        · rw [hrest]
          refine ⟨rfl, rfl, fun resp hr => ?_⟩
          obtain rfl := (ExtractFramesResult.ok.inj hr).symm
          exact ⟨rfl, rfl, rfl, hrd⟩

/-- A concrete call world: the demo video exists, the persistent directory
`/frames` already holds two frame files (plus a non-image file), the probe
would succeed with the healthy document and the decoder would throw if it
were ever reached. -/
def envCache : ToolEnv where
  fs :=
    { fileExistsF := fun s => s == "/videos/demo.mp4"
      dirListing := fun dname =>
        if dname == "/frames" then some ["b.jpg", "a.jpg", "notes.txt"] else none
      baseDir := none
      homeDir := "/home/user"
      joinF := fun a b => a ++ "/" ++ b
      resolveF := fun s => s
      readB64 := fun _ => "payload" }
  probe := .ok probeDemo
  decoder := .err "decoder must not run"

/-- A request against the demo video with persistent output `/frames` and a
frame cap of 1 — smaller than the 2 cached frames. -/
def inputCache : ExtractFramesInput :=
  { path := "/videos/demo.mp4", max_frames := some 1, output_dir := some "/frames" }

/-- C2 witness: in the concrete world the cached directory is non-empty and
the call neither invokes the decoder nor removes any directory. -/
theorem extractFramesTool_c2_witness :
    getExistingFrames envCache.fs "/frames" ≠ [] ∧
    (extractFramesTool envCache inputCache).2.decoderInvoked = false ∧
    (extractFramesTool envCache inputCache).2.removedDirs = [] := by
  have hconc : getExistingFrames envCache.fs "/frames" =
      ["/frames/a.jpg", "/frames/b.jpg"] := rfl
  have hne : getExistingFrames envCache.fs "/frames" ≠ [] := by
    rw [hconc]; simp
  have h := extractFramesTool_c2 envCache inputCache "/frames" rfl hne
  exact ⟨hne, h.1, h.2.1⟩

/-- C10: the `max_frames` cap binds only fresh decoder invocations — on a
persistent-output cache hit the tool succeeds with one frame per existing
image file, even when that count strictly exceeds the request's
`max_frames`, and `extraction_info.total_frames_extracted` equals the full
file count, with the decoder never invoked. -/
theorem extractFramesTool_c10 (env : ToolEnv) (input : ExtractFramesInput) (d : String)
    (hd : input.output_dir = some d)
    (hval : validateExtractFramesOptions env.fs
      { path := input.path, interval := some (input.interval.getD 2),
        max_frames := some (input.max_frames.getD 30),
        quality := some (input.quality.getD 75),
        width := some (input.width.getD 800),
        start_time := input.start_time, end_time := input.end_time } = none)
    (rp : String) (hrp : resolveVideoPath env.fs input.path = some rp)
    (pr : FFprobeResult) (hpr : env.probe = Except.ok pr)
    (hst : ∀ st, input.start_time = some st →
      ¬ st ≥ (parseVideoMetadata env.fs rp pr).duration_seconds)
    (hne : getExistingFrames env.fs d ≠ [])
    (hcount : input.max_frames.getD 30 < ((getExistingFrames env.fs d).length : ℚ)) :
    ∃ resp, (extractFramesTool env input).1 = .ok resp ∧
      resp.frames.length = (getExistingFrames env.fs d).length ∧
      resp.extraction_info.total_frames_extracted = (getExistingFrames env.fs d).length ∧
      input.max_frames.getD 30 < ((getExistingFrames env.fs d).length : ℚ) ∧
      (extractFramesTool env input).2.decoderInvoked = false := by
  have hlen : 0 < (getExistingFrames env.fs d).length := List.length_pos.mpr hne
  have hrd : (readExistingFramesFromDisk env.fs.readB64
      (getExistingFrames env.fs d) (input.interval.getD 2)
      (input.start_time.getD 0)).length = (getExistingFrames env.fs d).length :=
    framesLoop_length env.fs.readB64 (input.interval.getD 2)
      (input.start_time.getD 0) (getExistingFrames env.fs d) 0
  unfold extractFramesTool
  rw [hval]
  dsimp only
  rw [hrp]
  dsimp only
  rw [hpr]
  dsimp only
  cases hsto : input.start_time with
  | none =>
    dsimp only
    rw [extractFramesToolRest_cache env input _ d hd hlen]
    exact ⟨_, rfl, hrd, hrd, hcount, rfl⟩
  | some st =>
    dsimp only
    rw [if_neg (hst st hsto)]
    rw [extractFramesToolRest_cache env input _ d hd hlen]
    exact ⟨_, rfl, hrd, hrd, hcount, rfl⟩

/-- C10 witness: with 2 cached frames and `max_frames = 1`, the concrete
call succeeds with 2 frames and `total_frames_extracted = 2 > 1`. -/
theorem extractFramesTool_c10_witness :
    ∃ resp, (extractFramesTool envCache inputCache).1 = ExtractFramesResult.ok resp ∧
      resp.frames.length = 2 ∧
      resp.extraction_info.total_frames_extracted = 2 ∧
      inputCache.max_frames.getD 30 < ((2 : ℕ) : ℚ) := by
  have hconc : getExistingFrames envCache.fs "/frames" =
      ["/frames/a.jpg", "/frames/b.jpg"] := rfl
  have hne : getExistingFrames envCache.fs "/frames" ≠ [] := by rw [hconc]; simp
  have hvp : validateVideoPath envCache.fs "/videos/demo.mp4" = none := rfl
  have h1 : validateRange 2 (1/10) 60 "interval" = none := by
    rw [validateRange, if_neg (by norm_num)]
  have h2 : validateRange 1 1 500 "max_frames" = none := by
    rw [validateRange, if_neg (by norm_num)]
  have h3 : validateRange 75 1 100 "quality" = none := by
    rw [validateRange, if_neg (by norm_num)]
  have h4 : validateRange 800 100 3840 "width" = none := by
    rw [validateRange, if_neg (by norm_num)]
  have hval : validateExtractFramesOptions envCache.fs
      { path := "/videos/demo.mp4", interval := some 2, max_frames := some 1,
        quality := some 75, width := some 800, start_time := none,
        end_time := none } = none := by
    simp only [validateExtractFramesOptions, hvp, Option.some_bind, h1, h2, h3, h4]
  have hcount : inputCache.max_frames.getD 30 <
      ((getExistingFrames envCache.fs "/frames").length : ℚ) := by
    rw [hconc]
    show (1 : ℚ) < ((2 : ℕ) : ℚ)
    norm_num
  obtain ⟨resp, hok, hlen, htot, hlt, -⟩ := extractFramesTool_c10 envCache inputCache
    "/frames" rfl hval "/videos/demo.mp4" rfl probeDemo rfl
    (by intro st h; simp [inputCache] at h) hne hcount
  refine ⟨resp, hok, ?_, ?_, ?_⟩
  · rw [hlen, hconc]; rfl
  · rw [htot, hconc]; rfl
  · rw [hconc] at hlt
    simpa using hlt

end McpVideo
